import Mathlib

/-!
Shallow embedding of the promkit core (grapheme wrapping, pane extraction,
snapshot state model, readline/tree presets) with proofs of the spec's
testable properties.
-/

namespace Promkit

/-- A character and its display width (src/src/grapheme.rs, `Grapheme`). -/
structure Grapheme where
  ch : Char
  width : Nat
deriving DecidableEq, Repr

/-- Ordered sequence of graphemes (src/src/grapheme.rs, `Graphemes`). -/
abbrev Graphemes := List Grapheme

/-- Total display width of a row (src/src/grapheme.rs, the
`row.iter().fold(0, |l, g| l + g.width)` accumulation). -/
def widths (g : Graphemes) : Nat :=
  g.foldl (fun acc x => acc + x.width) 0

/-- One iteration of the `matrixify` loop body (src/src/grapheme.rs lines
86-98): close the current row when appending `ch` would exceed `width`,
then append `ch` unless its own width exceeds `width`. -/
def matrixifyStep (width : Nat) (st : List Graphemes × Graphemes) (ch : Grapheme) :
    List Graphemes × Graphemes :=
  let closed :=
    if st.2 ≠ [] ∧ width < widths st.2 + ch.width then (st.1 ++ [st.2], ([] : Graphemes))
    else st
  if ch.width ≤ width then (closed.1, closed.2 ++ [ch]) else closed

/-- src/src/grapheme.rs, `matrixify`: wrap a grapheme sequence into rows of
display width at most `width`; the final (possibly empty) row is pushed
after the loop. -/
def matrixify (width : Nat) (g : Graphemes) : List Graphemes :=
  let st := g.foldl (matrixifyStep width) ([], [])
  st.1 ++ [st.2]

lemma widths_append_single (l : Graphemes) (ch : Grapheme) :
    widths (l ++ [ch]) = widths l + ch.width := by
  simp [widths]

lemma widths_nil : widths [] = 0 := rfl

/-- Invariant of the wrapping loop: if every already-closed row and the
current row fit in `width`, the same holds after consuming `g`. -/
lemma matrixify_go_widths (w : Nat) (g : Graphemes) :
    ∀ (ret : List Graphemes) (row : Graphemes),
      (∀ r ∈ ret, widths r ≤ w) → widths row ≤ w →
      (∀ r ∈ (g.foldl (matrixifyStep w) (ret, row)).1, widths r ≤ w) ∧
        widths (g.foldl (matrixifyStep w) (ret, row)).2 ≤ w := by
  induction g with
  | nil => intro ret row hret hrow; exact ⟨hret, hrow⟩
  | cons ch rest ih =>
    intro ret row hret hrow
    rw [List.foldl_cons]
    by_cases hclose : row ≠ [] ∧ w < widths row + ch.width
    · by_cases happ : ch.width ≤ w
      · have hstep : matrixifyStep w (ret, row) ch = (ret ++ [row], [ch]) := by
          simp [matrixifyStep, hclose, happ]
        rw [hstep]
        refine ih _ _ ?_ ?_
        · intro r hr
          rcases List.mem_append.mp hr with h | h
          · exact hret r h
          · simp only [List.mem_singleton] at h; subst h; exact hrow
        · simpa [widths] using happ
      · have hstep : matrixifyStep w (ret, row) ch = (ret ++ [row], []) := by
          simp [matrixifyStep, hclose, happ]
        rw [hstep]
        refine ih _ _ ?_ ?_
        · intro r hr
          rcases List.mem_append.mp hr with h | h
          · exact hret r h
          · simp only [List.mem_singleton] at h; subst h; exact hrow
        · simp [widths_nil]
    · by_cases happ : ch.width ≤ w
      · have hstep : matrixifyStep w (ret, row) ch = (ret, row ++ [ch]) := by
          simp only [matrixifyStep, if_neg hclose]
          simp [happ]
        rw [hstep]
        refine ih _ _ hret ?_
        rw [widths_append_single]
        rcases Decidable.not_and_iff_or_not.mp hclose with h | h
        · have : row = [] := by simpa using h
          subst this
          simpa [widths_nil] using happ
        · omega
      · have hstep : matrixifyStep w (ret, row) ch = (ret, row) := by
          simp only [matrixifyStep, if_neg hclose]
          simp [happ]
        rw [hstep]
        exact ih _ _ hret hrow

/-- The wrapping loop emits, in order, exactly the input graphemes whose own
width fits in `w`; wider graphemes are dropped. -/
lemma matrixify_go_join (w : Nat) (g : Graphemes) :
    ∀ (ret : List Graphemes) (row : Graphemes),
      ((g.foldl (matrixifyStep w) (ret, row)).1 ++
          [(g.foldl (matrixifyStep w) (ret, row)).2]).flatten =
        ret.flatten ++ row ++ g.filter (fun ch => decide (ch.width ≤ w)) := by
  induction g with
  | nil => intro ret row; simp
  | cons ch rest ih =>
    intro ret row
    rw [List.foldl_cons]
    by_cases hclose : row ≠ [] ∧ w < widths row + ch.width
    · by_cases happ : ch.width ≤ w
      · have hstep : matrixifyStep w (ret, row) ch = (ret ++ [row], [ch]) := by
          simp [matrixifyStep, hclose, happ]
        rw [hstep, ih]
        simp [happ]
      · have hstep : matrixifyStep w (ret, row) ch = (ret ++ [row], []) := by
          simp [matrixifyStep, hclose, happ]
        rw [hstep, ih]
        simp [happ]
    · by_cases happ : ch.width ≤ w
      · have hstep : matrixifyStep w (ret, row) ch = (ret, row ++ [ch]) := by
          simp only [matrixifyStep, if_neg hclose]
          simp [happ]
        rw [hstep, ih]
        simp [happ]
      · have hstep : matrixifyStep w (ret, row) ch = (ret, row) := by
          simp only [matrixifyStep, if_neg hclose]
          simp [happ]
        rw [hstep, ih]
        simp [happ]

/-- src/src/pane.rs, `Pane`: a layout of grapheme rows, a scroll offset and
an optional fixed height. -/
structure Pane where
  layout : List Graphemes
  offset : Nat
  fixed_height : Option Nat
deriving DecidableEq, Repr

/-- The `lines` local of `Pane::extract` (src/src/pane.rs lines 55-59):
`layout.len().min(fixed_height.unwrap_or(viewport_height).min(viewport_height))`. -/
def Pane.extractLines (p : Pane) (viewport_height : Nat) : Nat :=
  min p.layout.length (min (p.fixed_height.getD viewport_height) viewport_height)

/-- The `start` local of `Pane::extract` (src/src/pane.rs lines 61-65):
starts at `offset` and is shifted to `len - lines` (saturating) when the
window `[offset, offset+lines)` would run past the layout. -/
def Pane.extractStart (p : Pane) (viewport_height : Nat) : Nat :=
  if p.layout.length < p.offset + p.extractLines viewport_height then
    p.layout.length - p.extractLines viewport_height
  else p.offset

/-- src/src/pane.rs, `Pane::extract`: keep the rows whose index lies in
`[start, offset+lines)`, via `enumerate().filter().map()`. -/
def Pane.extract (p : Pane) (viewport_height : Nat) : List Graphemes :=
  ((List.enumFrom 0 p.layout).filter
      (fun pr =>
        decide (p.extractStart viewport_height ≤ pr.1) &&
          decide (pr.1 < p.offset + p.extractLines viewport_height))).map Prod.snd

/-- Filtering an enumeration to an index interval and dropping the indices
is a contiguous drop/take window of the underlying list. -/
lemma enumFrom_filter_window {α : Type} (s e : Nat) :
    ∀ (l : List α) (n : Nat),
      ((List.enumFrom n l).filter
          (fun pr => decide (s ≤ pr.1) && decide (pr.1 < e))).map Prod.snd =
        (l.drop (s - n)).take (e - max s n) := by
  intro l
  induction l with
  | nil => intro n; simp
  | cons a l ih =>
    intro n
    rw [List.enumFrom_cons]
    by_cases h1 : s ≤ n
    · by_cases h2 : n < e
      · rw [List.filter_cons_of_pos (by simp [h1, h2]), List.map_cons, ih (n + 1)]
        have hs1 : s - (n + 1) = 0 := by omega
        have hm2 : max s (n + 1) = n + 1 := Nat.max_eq_right (by omega)
        have hs0 : s - n = 0 := by omega
        have hm : max s n = n := Nat.max_eq_right h1
        rw [hs1, hm2, hs0, hm, List.drop_zero, List.drop_zero]
        conv_rhs => rw [show e - n = (e - (n + 1)) + 1 from by omega]
        rw [List.take_succ_cons]
      · rw [List.filter_cons_of_neg (by simp [h2]), ih (n + 1)]
        have hm2 : max s (n + 1) = n + 1 := Nat.max_eq_right (by omega)
        have he1 : e - (n + 1) = 0 := by omega
        have hm : max s n = n := Nat.max_eq_right h1
        have he0 : e - n = 0 := by omega
        rw [hm2, he1, hm, he0]
        simp
    · rw [List.filter_cons_of_neg (by simp [h1]), ih (n + 1)]
      have hm : max s n = s := Nat.max_eq_left (by omega)
      have hm2 : max s (n + 1) = s := Nat.max_eq_left (by omega)
      rw [hm, hm2]
      congr 1
      rw [show s - n = (s - (n + 1)) + 1 from by omega, List.drop_succ_cons]

lemma pane_extract_eq_drop_take (p : Pane) (V : Nat) :
    p.extract V =
      (p.layout.drop (p.extractStart V)).take
        (p.offset + p.extractLines V - p.extractStart V) := by
  unfold Pane.extract
  rw [enumFrom_filter_window]
  rw [Nat.sub_zero, Nat.max_eq_left (Nat.zero_le _)]

/-- C1: for every pane and viewport height, `extract` returns exactly
`min(N, F-or-V, V)` rows (`extractLines`), they are a contiguous
order-preserving window `drop start |> take lines` of the layout, the
window stays in range (`start + lines ≤ N`), the window starts at `offset`
when `[offset, offset+lines)` fits, and is shifted left to end exactly at
`N` when it runs past the layout; no input makes this fail. -/
theorem pane_extract_spec (p : Pane) (V : Nat) :
    (p.extract V).length = p.extractLines V ∧
      p.extract V = (p.layout.drop (p.extractStart V)).take (p.extractLines V) ∧
      p.extractStart V + p.extractLines V ≤ p.layout.length ∧
      (p.offset + p.extractLines V ≤ p.layout.length → p.extractStart V = p.offset) ∧
      (p.layout.length < p.offset + p.extractLines V →
        p.extractStart V + p.extractLines V = p.layout.length) := by
  have hL : p.extractLines V ≤ p.layout.length := Nat.min_le_left _ _
  have hdt := pane_extract_eq_drop_take p V
  by_cases hc : p.layout.length < p.offset + p.extractLines V
  · have hS : p.extractStart V = p.layout.length - p.extractLines V := by
      unfold Pane.extractStart
      rw [if_pos hc]
    have hlen_drop : (p.layout.drop (p.extractStart V)).length = p.extractLines V := by
      rw [List.length_drop, hS]
      omega
    have htake1 :
        (p.layout.drop (p.extractStart V)).take
            (p.offset + p.extractLines V - p.extractStart V) =
          p.layout.drop (p.extractStart V) := by
      apply List.take_of_length_le
      rw [hlen_drop]
      omega
    have htake2 :
        (p.layout.drop (p.extractStart V)).take (p.extractLines V) =
          p.layout.drop (p.extractStart V) := by
      apply List.take_of_length_le
      rw [hlen_drop]
    refine ⟨?_, ?_, ?_, ?_, ?_⟩
    · rw [hdt, htake1, hlen_drop]
    · rw [hdt, htake1, htake2]
    · omega
    · intro h; omega
    · intro _; omega
  · have hS : p.extractStart V = p.offset := by
      unfold Pane.extractStart
      rw [if_neg hc]
    have harg : p.offset + p.extractLines V - p.extractStart V = p.extractLines V := by
      rw [hS]; omega
    refine ⟨?_, ?_, ?_, ?_, ?_⟩
    · rw [hdt, harg, List.length_take, List.length_drop, hS]
      omega
    · rw [hdt, harg]
    · omega
    · intro _; exact hS
    · intro h; omega

/-- Witness for C1: a 4-row pane with an offset past the end, fixed height 3,
viewport 2. -/
theorem pane_extract_spec_witness :
    (Pane.extract ⟨[[⟨'a', 1⟩], [⟨'b', 1⟩], [⟨'c', 1⟩], [⟨'d', 1⟩]], 9, some 3⟩ 2).length =
        Pane.extractLines ⟨[[⟨'a', 1⟩], [⟨'b', 1⟩], [⟨'c', 1⟩], [⟨'d', 1⟩]], 9, some 3⟩ 2 ∧
      Pane.extract ⟨[[⟨'a', 1⟩], [⟨'b', 1⟩], [⟨'c', 1⟩], [⟨'d', 1⟩]], 9, some 3⟩ 2 =
        (([[⟨'a', 1⟩], [⟨'b', 1⟩], [⟨'c', 1⟩], [⟨'d', 1⟩]] : List Graphemes).drop
            (Pane.extractStart ⟨[[⟨'a', 1⟩], [⟨'b', 1⟩], [⟨'c', 1⟩], [⟨'d', 1⟩]], 9, some 3⟩ 2)).take
          (Pane.extractLines ⟨[[⟨'a', 1⟩], [⟨'b', 1⟩], [⟨'c', 1⟩], [⟨'d', 1⟩]], 9, some 3⟩ 2) ∧
      Pane.extractStart ⟨[[⟨'a', 1⟩], [⟨'b', 1⟩], [⟨'c', 1⟩], [⟨'d', 1⟩]], 9, some 3⟩ 2 +
          Pane.extractLines ⟨[[⟨'a', 1⟩], [⟨'b', 1⟩], [⟨'c', 1⟩], [⟨'d', 1⟩]], 9, some 3⟩ 2 ≤ 4 ∧
      (9 + Pane.extractLines ⟨[[⟨'a', 1⟩], [⟨'b', 1⟩], [⟨'c', 1⟩], [⟨'d', 1⟩]], 9, some 3⟩ 2 ≤ 4 →
        Pane.extractStart ⟨[[⟨'a', 1⟩], [⟨'b', 1⟩], [⟨'c', 1⟩], [⟨'d', 1⟩]], 9, some 3⟩ 2 = 9) ∧
      (4 < 9 + Pane.extractLines ⟨[[⟨'a', 1⟩], [⟨'b', 1⟩], [⟨'c', 1⟩], [⟨'d', 1⟩]], 9, some 3⟩ 2 →
        Pane.extractStart ⟨[[⟨'a', 1⟩], [⟨'b', 1⟩], [⟨'c', 1⟩], [⟨'d', 1⟩]], 9, some 3⟩ 2 +
            Pane.extractLines ⟨[[⟨'a', 1⟩], [⟨'b', 1⟩], [⟨'c', 1⟩], [⟨'d', 1⟩]], 9, some 3⟩ 2 = 4) :=
  pane_extract_spec ⟨[[⟨'a', 1⟩], [⟨'b', 1⟩], [⟨'c', 1⟩], [⟨'d', 1⟩]], 9, some 3⟩ 2

/-- C2: for every width `w` and grapheme sequence in which no grapheme is
wider than `w`, `matrixify` (the wrap operation) produces rows whose
per-row total display width never exceeds `w`, and concatenating all
output rows in order reproduces the input sequence exactly. -/
theorem matrixify_wrap_sound (w : Nat) (g : Graphemes) (h : ∀ ch ∈ g, ch.width ≤ w) :
    (∀ row ∈ matrixify w g, widths row ≤ w) ∧ (matrixify w g).flatten = g := by
  constructor
  · intro row hrow
    have hinv := matrixify_go_widths w g [] [] (by simp) (by simp [widths])
    unfold matrixify at hrow
    rcases List.mem_append.mp hrow with hr | hr
    · exact hinv.1 row hr
    · simp only [List.mem_singleton] at hr
      subst hr
      exact hinv.2
  · have hj := matrixify_go_join w g [] []
    have hfil : g.filter (fun ch => decide (ch.width ≤ w)) = g := by
      apply List.filter_eq_self.mpr
      intro a ha
      simpa using h a ha
    unfold matrixify
    simpa [hfil] using hj

/-- Witness for C2 at a concrete wrap: width 2, widths 1,2,1. -/
theorem matrixify_wrap_sound_witness :
    (∀ row ∈ matrixify 2 ([⟨'a', 1⟩, ⟨'b', 2⟩, ⟨'c', 1⟩] : Graphemes), widths row ≤ 2) ∧
      (matrixify 2 ([⟨'a', 1⟩, ⟨'b', 2⟩, ⟨'c', 1⟩] : Graphemes)).flatten =
        ([⟨'a', 1⟩, ⟨'b', 2⟩, ⟨'c', 1⟩] : Graphemes) :=
  matrixify_wrap_sound 2 _ (by decide)

/-- C6: for every width `w` and every input, no grapheme whose own width
exceeds `w` appears in any output row of `matrixify`: the flattened output
is exactly the input filtered to the graphemes that fit, so wide graphemes
are dropped, never appended. -/
theorem matrixify_drops_wide (w : Nat) (g : Graphemes) :
    (∀ row ∈ matrixify w g, ∀ ch ∈ row, ch.width ≤ w) ∧
      (matrixify w g).flatten = g.filter (fun ch => decide (ch.width ≤ w)) := by
  have hj := matrixify_go_join w g [] []
  have hflat : (matrixify w g).flatten = g.filter (fun ch => decide (ch.width ≤ w)) := by
    unfold matrixify
    simpa using hj
  refine ⟨?_, hflat⟩
  intro row hrow ch hch
  have hmem : ch ∈ (matrixify w g).flatten := List.mem_flatten.mpr ⟨row, hrow, hch⟩
  rw [hflat] at hmem
  simpa using List.of_mem_filter hmem

/-- Witness for C6: width 1 with a width-2 grapheme in the input. -/
theorem matrixify_drops_wide_witness :
    (∀ row ∈ matrixify 1 ([⟨'E', 2⟩, ⟨'x', 1⟩] : Graphemes), ∀ ch ∈ row, ch.width ≤ 1) ∧
      (matrixify 1 ([⟨'E', 2⟩, ⟨'x', 1⟩] : Graphemes)).flatten =
        ([⟨'E', 2⟩, ⟨'x', 1⟩] : Graphemes).filter (fun ch => decide (ch.width ≤ 1)) :=
  matrixify_drops_wide 1 _

/-- Modelled from the spec: `Snapshot<S>` (snapshot.rs is not under the
given sources) is the dual-buffered state holder
`{ init: S, before: S, after: S }` with `init` fixed at creation. -/
structure Snapshot (σ : Type) where
  init : σ
  before : σ
  after : σ
deriving DecidableEq, Repr

/-- Modelled from the spec: `Snapshot::reset_after_to_init` sets the live
working copy `after` back to `init` (spec: "after is ... reset to init"). -/
def Snapshot.reset_after_to_init {σ : Type} (s : Snapshot σ) : Snapshot σ :=
  { s with after := s.init }

/-- Modelled from the spec: `PaneFactory::create_pane` on a snapshot renders
a pane from the snapshot's live `after` state; the concrete per-widget
renderers are not under the given sources, so the state-to-pane function
`f` is a parameter. -/
def Snapshot.create_pane {σ : Type} (f : σ → Nat → Nat → Pane) (s : Snapshot σ)
    (width height : Nat) : Pane :=
  f s.after width height

/-- src/promkit/src/preset/readline/render.rs, `Renderer`: the readline
preset's renderer state. The widget state types (`text::State`,
`text_editor::State`, `listbox::State`) and the keymap, suggest and
validator components are not under the given sources and stay abstract. -/
structure ReadlineRenderer (κ τ ε ζ σg σs νl : Type) where
  keymap : κ
  title_snapshot : Snapshot τ
  text_editor_snapshot : Snapshot ε
  suggest : Option σg
  suggest_snapshot : Snapshot σs
  validator : Option νl
  error_message_snapshot : Snapshot ζ

/-- src/promkit/src/preset/readline/render.rs, `Finalizer::finalize`:
return the text extracted from the text editor snapshot's `after` state,
then reset that snapshot's `after` to `init`. `text_without_cursor` is not
under the given sources, so the extraction is a parameter. -/
def ReadlineRenderer.finalize {κ τ ε ζ σg σs νl : Type}
    (text_without_cursor : ε → String) (r : ReadlineRenderer κ τ ε ζ σg σs νl) :
    String × ReadlineRenderer κ τ ε ζ σg σs νl :=
  (text_without_cursor r.text_editor_snapshot.after,
    { r with text_editor_snapshot := r.text_editor_snapshot.reset_after_to_init })

/-- src/promkit/src/preset/readline/render.rs, `Renderer::create_panes`:
one pane per snapshot, in the declared order title, error message, text
editor, suggest. -/
def ReadlineRenderer.create_panes {κ τ ε ζ σg σs νl : Type}
    (fTitle : τ → Nat → Nat → Pane) (fErr : ζ → Nat → Nat → Pane)
    (fEditor : ε → Nat → Nat → Pane) (fSuggest : σs → Nat → Nat → Pane)
    (r : ReadlineRenderer κ τ ε ζ σg σs νl) (width height : Nat) : List Pane :=
  [r.title_snapshot.create_pane fTitle width height,
    r.error_message_snapshot.create_pane fErr width height,
    r.text_editor_snapshot.create_pane fEditor width height,
    r.suggest_snapshot.create_pane fSuggest width height]

/-- src/promkit/src/preset/tree/render.rs, `Renderer`: the tree preset's
renderer state; the keymap and the widget state types stay abstract. -/
structure TreeRenderer (κ τ θ : Type) where
  keymap : κ
  title_snapshot : Snapshot τ
  tree_snapshot : Snapshot θ

/-- src/promkit/src/preset/tree/render.rs, `Finalizer::finalize`: return
`tree_snapshot.after().tree.get()` — the value extracted from `after` —
and leave the renderer untouched (no reset is performed). `tree.get` is
not under the given sources, so the extraction is a parameter. -/
def TreeRenderer.finalize {κ τ θ : Type} (get : θ → List String)
    (r : TreeRenderer κ τ θ) : List String × TreeRenderer κ τ θ :=
  (get r.tree_snapshot.after, r)

/-- src/promkit/src/preset/tree/render.rs, `Renderer::create_panes`: one
pane per snapshot, in the declared order title, tree. -/
def TreeRenderer.create_panes {κ τ θ : Type}
    (fTitle : τ → Nat → Nat → Pane) (fTree : θ → Nat → Nat → Pane)
    (r : TreeRenderer κ τ θ) (width height : Nat) : List Pane :=
  [r.title_snapshot.create_pane fTitle width height,
    r.tree_snapshot.create_pane fTree width height]

/-- A concrete tree renderer used to refute C3: `after` holds a value that
differs from `init`'s. -/
def treeRendererEx : TreeRenderer Unit Unit (List String) :=
  { keymap := (), title_snapshot := ⟨(), (), ()⟩,
    tree_snapshot := ⟨["a"], ["a"], ["b"]⟩ }

/-- C3 counterexample: on the tree preset, a second `finalize` invoked
immediately after the first does NOT return the value extracted from the
initial state — `finalize` performs no reset there, so the claim fails for
the tree renderer's `Finalizer` implementation. -/
theorem tree_finalize_no_reset_counterexample :
    ¬ ((TreeRenderer.finalize id (TreeRenderer.finalize id treeRendererEx).2).1 =
        id treeRendererEx.tree_snapshot.init) := by
  decide

/-- C3 amended: the readline preset's `finalize` returns the text extracted
from `text_editor_snapshot.after` and resets that `after` to `init`, so a
second `finalize` returns the value extracted from the initial state; the
tree preset's `finalize` returns the value extracted from `after` but
performs no reset, so a second `finalize` returns the same value again. -/
theorem preset_finalize_spec {κ τ ε ζ σg σs νl κt τt θ : Type}
    (f : ε → String) (r : ReadlineRenderer κ τ ε ζ σg σs νl)
    (g : θ → List String) (t : TreeRenderer κt τt θ) :
    (ReadlineRenderer.finalize f r).1 = f r.text_editor_snapshot.after ∧
      (ReadlineRenderer.finalize f r).2.text_editor_snapshot.after =
        r.text_editor_snapshot.init ∧
      (ReadlineRenderer.finalize f (ReadlineRenderer.finalize f r).2).1 =
        f r.text_editor_snapshot.init ∧
      (TreeRenderer.finalize g t).1 = g t.tree_snapshot.after ∧
      (TreeRenderer.finalize g t).2 = t ∧
      (TreeRenderer.finalize g (TreeRenderer.finalize g t).2).1 =
        g t.tree_snapshot.after :=
  ⟨rfl, rfl, rfl, rfl, rfl, rfl⟩

/-- C8: `create_panes` returns exactly one pane per live widget snapshot in
the fixed declared top-to-bottom order — readline: title, error message,
text editor, suggest; tree: title, tree — with every pane present in that
order (the lists always have length 4 resp. 2, whether or not any pane's
content is empty). -/
theorem create_panes_order {κ τ ε ζ σg σs νl κt τt θ : Type}
    (fTitle : τ → Nat → Nat → Pane) (fErr : ζ → Nat → Nat → Pane)
    (fEditor : ε → Nat → Nat → Pane) (fSuggest : σs → Nat → Nat → Pane)
    (r : ReadlineRenderer κ τ ε ζ σg σs νl)
    (gTitle : τt → Nat → Nat → Pane) (gTree : θ → Nat → Nat → Pane)
    (t : TreeRenderer κt τt θ) (width height : Nat) :
    (ReadlineRenderer.create_panes fTitle fErr fEditor fSuggest r width height).length = 4 ∧
      ReadlineRenderer.create_panes fTitle fErr fEditor fSuggest r width height =
        [fTitle r.title_snapshot.after width height,
          fErr r.error_message_snapshot.after width height,
          fEditor r.text_editor_snapshot.after width height,
          fSuggest r.suggest_snapshot.after width height] ∧
      (TreeRenderer.create_panes gTitle gTree t width height).length = 2 ∧
      TreeRenderer.create_panes gTitle gTree t width height =
        [gTitle t.title_snapshot.after width height,
          gTree t.tree_snapshot.after width height] :=
  ⟨rfl, rfl, rfl, rfl⟩

/-- Key codes of the crossterm events matched by the sources. -/
inductive KeyCode where
  | char (c : Char)
  | enter
  | backspace
  | left
  | right
  | up
  | down
  | tab
  | esc
deriving DecidableEq, Repr

/-- Modifier values matched by the sources (`NONE`, `SHIFT`, `CONTROL`,
anything else). -/
inductive KeyModifiers where
  | NONE
  | SHIFT
  | CONTROL
  | other
deriving DecidableEq, Repr

inductive KeyEventKind where
  | Press
  | Release
  | Repeat
deriving DecidableEq, Repr

inductive KeyEventState where
  | NONE
  | other
deriving DecidableEq, Repr

structure KeyEvent where
  code : KeyCode
  modifiers : KeyModifiers
  kind : KeyEventKind
  state : KeyEventState
deriving DecidableEq, Repr

/-- The crossterm `Event` enum, restricted to the payloads the sources
inspect. -/
inductive Event where
  | key (e : KeyEvent)
  | mouse
  | paste (s : String)
  | resize (width height : Nat)
  | focusGained
  | focusLost
deriving DecidableEq, Repr

/-- Modelled from the spec: the validator pair
`{predicate(text)->bool, message(text)->string}` (validate.rs is not under
the given sources). -/
structure Validator where
  predicate : String → Bool
  error_message_configure : String → String

/-- Modelled from the spec: `Validator::validate` applies the predicate. -/
def Validator.validate (v : Validator) (text : String) : Bool :=
  v.predicate text

/-- Modelled from the spec: `Validator::error_message` renders the
configured message for the rejected text. -/
def Validator.error_message (v : Validator) (text : String) : String :=
  v.error_message_configure text

/-- src/src/preset/readline.rs, `text::Renderer`: the error-message (and
title) widget state is a text plus a style; the style type stays
abstract. -/
structure TextRenderer (Style : Type) where
  text : String
  style : Style
deriving DecidableEq, Repr

/-- src/src/preset/readline.rs lines 155-195, the evaluate closure of
`Readline::prompt`: on Enter with a configured validator, validate the
editor text; on failure write the validator's message into the
error-message widget's `after` text; every other event (and Enter without
a validator) evaluates to `true`; finally, when the evaluation is `true`,
reset the error-message widget's `after` to its `init`. Returns the
closure's boolean together with the updated error-message snapshot. -/
def readlineEvaluate {Style : Type} (validator : Option Validator) (event : Event)
    (text : String) (errorState : Snapshot (TextRenderer Style)) :
    Bool × Snapshot (TextRenderer Style) :=
  let step : Bool × Snapshot (TextRenderer Style) :=
    match event with
    | .key ⟨.enter, .NONE, .Press, .NONE⟩ =>
      match validator with
      | some v =>
        let ret := v.validate text
        if ¬ v.validate text then
          (ret, { errorState with
            after := { errorState.after with text := v.error_message text } })
        else (ret, errorState)
      | none => (true, errorState)
    | _ => (true, errorState)
  if step.1 then (step.1, { step.2 with after := step.2.init }) else step

/-- C4: on an Enter key press with a configured validator, when the
predicate rejects the current editor text the evaluation returns `false`
(the continue signal — Quit is blocked — not an error) and the
error-message widget's `after` text is set to the validator's message;
when the predicate accepts the text the evaluation returns `true` (Quit
allowed). -/
theorem readline_enter_validation {Style : Type} (v : Validator) (text : String)
    (s : Snapshot (TextRenderer Style)) :
    (v.validate text = false →
        readlineEvaluate (some v) (.key ⟨.enter, .NONE, .Press, .NONE⟩) text s =
          (false, { s with after := { s.after with text := v.error_message text } })) ∧
      (v.validate text = true →
        readlineEvaluate (some v) (.key ⟨.enter, .NONE, .Press, .NONE⟩) text s =
          (true, { s with after := s.init })) := by
  constructor
  · intro h
    simp [readlineEvaluate, h]
  · intro h
    simp [readlineEvaluate, h]

/-- Witness for C4: a validator that rejects everything with message
"bad", at editor text "x". -/
theorem readline_enter_validation_witness :
    @readlineEvaluate Unit (some ⟨fun _ => false, fun _ => "bad"⟩)
        (.key ⟨.enter, .NONE, .Press, .NONE⟩) "x" ⟨⟨"", ()⟩, ⟨"", ()⟩, ⟨"", ()⟩⟩ =
      (false, ⟨⟨"", ()⟩, ⟨"", ()⟩, ⟨"bad", ()⟩⟩) :=
  (readline_enter_validation ⟨fun _ => false, fun _ => "bad"⟩ "x"
    ⟨⟨"", ()⟩, ⟨"", ()⟩, ⟨"", ()⟩⟩).1 rfl

/-- C5 counterexample: a validator whose message for the rejected input
equals the error widget's initial text. The evaluation rejects (returns
`false`, so the last validation failed), yet the error widget's `after`
ends up equal to `init` — refuting the claimed "equals init if and only if
the last validation succeeded". -/
theorem readline_error_iff_counterexample :
    ¬ (((@readlineEvaluate Unit (some ⟨fun _ => false, fun _ => ""⟩)
            (.key ⟨.enter, .NONE, .Press, .NONE⟩) "x"
            ⟨⟨"", ()⟩, ⟨"", ()⟩, ⟨"old", ()⟩⟩).2.after =
          (⟨⟨"", ()⟩, ⟨"", ()⟩, ⟨"old", ()⟩⟩ : Snapshot (TextRenderer Unit)).init) ↔
        (@readlineEvaluate Unit (some ⟨fun _ => false, fun _ => ""⟩)
            (.key ⟨.enter, .NONE, .Press, .NONE⟩) "x"
            ⟨⟨"", ()⟩, ⟨"", ()⟩, ⟨"old", ()⟩⟩).1 = true) := by
  decide

/-- C5 amended: after every event's evaluation, if the evaluation returned
`true` (no validation ran, or it succeeded) the error-message widget's
`after` is reset to `init`; if it returned `false` (the validator rejected
the editor text) the widget's `after` text holds the validator's message
for the rejected input — which coincides with `init` only when that
message happens to equal `init`'s text. -/
theorem readline_error_reset {Style : Type} (validator : Option Validator)
    (event : Event) (text : String) (s : Snapshot (TextRenderer Style)) :
    ((readlineEvaluate validator event text s).1 = true →
        (readlineEvaluate validator event text s).2.after = s.init) ∧
      ((readlineEvaluate validator event text s).1 = false →
        ∃ v, validator = some v ∧
          (readlineEvaluate validator event text s).2.after =
            { s.after with text := v.error_message text }) := by
  constructor
  · intro h
    unfold readlineEvaluate at h ⊢
    rcases event with e | _ | _ | _ | _ | _ <;> simp_all
    rcases e with ⟨code, mods, kind, st⟩
    rcases code <;> rcases mods <;> rcases kind <;> rcases st <;> simp_all
    rcases validator with _ | v
    · simp_all
    · by_cases hv : v.validate text <;> simp_all
  · intro h
    unfold readlineEvaluate at h ⊢
    rcases event with e | _ | _ | _ | _ | _ <;> simp_all
    rcases e with ⟨code, mods, kind, st⟩
    rcases code <;> rcases mods <;> rcases kind <;> rcases st <;> simp_all
    rcases validator with _ | v
    · simp_all
    · by_cases hv : v.validate text
      · simp_all
      · refine ⟨v, rfl, ?_⟩
        simp_all

/-- Witness for the amended C5: an event that runs no validation resets the
error widget's `after` to `init`. -/
theorem readline_error_reset_witness :
    (@readlineEvaluate Unit none Event.mouse "t"
        ⟨⟨"i", ()⟩, ⟨"b", ()⟩, ⟨"a", ()⟩⟩).2.after =
      (⟨⟨"i", ()⟩, ⟨"b", ()⟩, ⟨"a", ()⟩⟩ : Snapshot (TextRenderer Unit)).init :=
  (readline_error_reset none Event.mouse "t" ⟨⟨"i", ()⟩, ⟨"b", ()⟩, ⟨"a", ()⟩⟩).1 rfl

/-- Modelled from the spec: `TextBuffer` (text.rs is not under the given
sources): graphemes plus a cursor `position ∈ [0, length]`. -/
structure TextBuffer where
  buf : Graphemes
  position : Nat
deriving DecidableEq, Repr

/-- Modelled from the spec: an empty buffer with the cursor at 0. -/
def TextBuffer.new : TextBuffer := ⟨[], 0⟩

/-- Modelled from the spec: move-left, saturating at the buffer head. -/
def TextBuffer.prev (t : TextBuffer) : TextBuffer :=
  { t with position := t.position - 1 }

/-- Modelled from the spec: move-right, saturating at the buffer tail. -/
def TextBuffer.next (t : TextBuffer) : TextBuffer :=
  { t with position := min (t.position + 1) t.buf.length }

/-- Modelled from the spec: `position = 0`. -/
def TextBuffer.to_head (t : TextBuffer) : TextBuffer :=
  { t with position := 0 }

/-- Modelled from the spec: `position = length`. -/
def TextBuffer.to_tail (t : TextBuffer) : TextBuffer :=
  { t with position := t.buf.length }

/-- Modelled from the spec: erase-before-cursor, a no-op at position 0. -/
def TextBuffer.erase (t : TextBuffer) : TextBuffer :=
  if t.position = 0 then t
  else
    { buf := t.buf.take (t.position - 1) ++ t.buf.drop t.position,
      position := t.position - 1 }

/-- Modelled from the spec: insert-at-cursor; the cursor advances by one. -/
def TextBuffer.insert (t : TextBuffer) (g : Grapheme) : TextBuffer :=
  { buf := t.buf.take t.position ++ [g] ++ t.buf.drop t.position,
    position := t.position + 1 }

/-- src/src/grapheme.rs, `Grapheme::from(char)`: pairs the character with
its display width. The Unicode width table is external to the sources, so
it is passed as `table` (spec: width from a Unicode width table, unknown
width defaults to 0). -/
def Grapheme.ofChar (table : Char → Nat) (c : Char) : Grapheme :=
  ⟨c, table c⟩

/-- src/src/editor/text.rs, `TextEditor`: a text buffer plus a label. -/
structure TextEditor where
  textbuffer : TextBuffer
  label : Graphemes
deriving DecidableEq, Repr

/-- One iteration of the wrapping loop inlined in `TextEditor::gen_pane`
(src/src/editor/text.rs lines 33-45). -/
def genPaneStep (width : Nat) (st : List Graphemes × Graphemes) (ch : Grapheme) :
    List Graphemes × Graphemes :=
  let closed :=
    if st.2 ≠ [] ∧ width < widths st.2 + ch.width then (st.1 ++ [st.2], ([] : Graphemes))
    else st
  if ch.width ≤ width then (closed.1, closed.2 ++ [ch]) else closed

/-- The row layout computed inline by `TextEditor::gen_pane`
(src/src/editor/text.rs lines 31-46), including the final `layout.push(row)`. -/
def genPaneLayout (width : Nat) (buf : Graphemes) : List Graphemes :=
  let st := buf.foldl (genPaneStep width) ([], [])
  st.1 ++ [st.2]

/-- src/src/editor/text.rs, `TextEditor::gen_pane`: concatenate label and
buffer, wrap them inline, and build a pane with
`offset = position / size.0`. In Rust the `usize` division panics when the
terminal width `size.0` is zero, modelled as `none`; the `Pane` in that
file has no `fixed_height`, modelled as `none`. -/
def TextEditor.gen_pane (e : TextEditor) (size : Nat × Nat) : Option Pane :=
  if size.1 = 0 then none
  else
    some
      ⟨genPaneLayout size.1 (e.label ++ e.textbuffer.buf),
        e.textbuffer.position / size.1, none⟩

/-- src/src/editor/text.rs, `TextEditor::handle_event`: the declared key
bindings; the final `_` arm builds two throwaway `TextBuffer`s and changes
nothing. -/
def TextEditor.handle_event (table : Char → Nat) (e : TextEditor) (event : Event) :
    TextEditor :=
  match event with
  | .key ⟨.left, .NONE, .Press, .NONE⟩ => { e with textbuffer := e.textbuffer.prev }
  | .key ⟨.right, .NONE, .Press, .NONE⟩ => { e with textbuffer := e.textbuffer.next }
  | .key ⟨.char 'a', .CONTROL, .Press, .NONE⟩ =>
      { e with textbuffer := e.textbuffer.to_head }
  | .key ⟨.char 'e', .CONTROL, .Press, .NONE⟩ =>
      { e with textbuffer := e.textbuffer.to_tail }
  | .key ⟨.backspace, .NONE, .Press, .NONE⟩ => { e with textbuffer := e.textbuffer.erase }
  | .key ⟨.char c, .NONE, .Press, .NONE⟩
  | .key ⟨.char c, .SHIFT, .Press, .NONE⟩ =>
      { e with textbuffer := e.textbuffer.insert (Grapheme.ofChar table c) }
  | _ => e

/-- The event shapes bound by `TextEditor::handle_event` (the non-`_` arms
of the match in src/src/editor/text.rs lines 53-105). -/
def TextEditor.matchesBinding : Event → Bool
  | .key ⟨.left, .NONE, .Press, .NONE⟩ => true
  | .key ⟨.right, .NONE, .Press, .NONE⟩ => true
  | .key ⟨.char 'a', .CONTROL, .Press, .NONE⟩ => true
  | .key ⟨.char 'e', .CONTROL, .Press, .NONE⟩ => true
  | .key ⟨.backspace, .NONE, .Press, .NONE⟩ => true
  | .key ⟨.char _, .NONE, .Press, .NONE⟩ => true
  | .key ⟨.char _, .SHIFT, .Press, .NONE⟩ => true
  | _ => false

/-- C7: for every editor state and every event that matches none of the
declared key bindings (Left, Right, Ctrl+a, Ctrl+e, Backspace,
plain/shifted character), `handle_event` leaves the editor — buffer
content and cursor position — unchanged, and being a total function it
cannot fail. -/
theorem texteditor_unmatched_noop (table : Char → Nat) (e : TextEditor) (event : Event)
    (h : TextEditor.matchesBinding event = false) :
    TextEditor.handle_event table e event = e := by
  rcases event with ke | _ | _ | _ | _ | _ <;> try rfl
  rcases ke with ⟨code, mods, kind, st⟩
  rcases code <;> rcases mods <;> rcases kind <;> rcases st <;>
    simp_all [TextEditor.matchesBinding, TextEditor.handle_event]
  rename_i c
  by_cases ha : c = 'a'
  · subst ha
    exact absurd h (by decide)
  · by_cases he : c = 'e'
    · subst he
      exact absurd h (by decide)
    · split <;> simp_all

/-- Witness for C7: Enter is not bound by the text editor, so it is a
no-op. -/
theorem texteditor_unmatched_noop_witness :
    TextEditor.handle_event (fun _ => 1) ⟨⟨[⟨'h', 1⟩, ⟨'i', 1⟩], 2⟩, [⟨'>', 1⟩]⟩
        (.key ⟨.enter, .NONE, .Press, .NONE⟩) =
      ⟨⟨[⟨'h', 1⟩, ⟨'i', 1⟩], 2⟩, [⟨'>', 1⟩]⟩ :=
  texteditor_unmatched_noop (fun _ => 1) ⟨⟨[⟨'h', 1⟩, ⟨'i', 1⟩], 2⟩, [⟨'>', 1⟩]⟩
    (.key ⟨.enter, .NONE, .Press, .NONE⟩) rfl

/-- A concrete editor used for C9: two graphemes, cursor at 2. -/
def texteditorEx : TextEditor := ⟨⟨[⟨'h', 1⟩, ⟨'i', 1⟩], 2⟩, [⟨'>', 1⟩]⟩

/-- C9 counterexample: at terminal width 0 — a terminal size the claim
quantifies over — `gen_pane` does not return a Pane at all: the Rust code
divides `position` by the width and panics. -/
theorem gen_pane_zero_width_counterexample :
    ¬ ∃ p : Pane, TextEditor.gen_pane texteditorEx (0, 1) = some p := by
  rintro ⟨p, hp⟩
  simp [TextEditor.gen_pane] at hp

/-- C9 amended: for every editor state and every terminal size with a
positive width, `gen_pane` returns a pane whose `offset` is the cursor
position divided (integer division) by the terminal width; at width 0 the
division panics. -/
theorem gen_pane_offset (e : TextEditor) (w h : Nat) (hw : 0 < w) :
    ∃ p : Pane, TextEditor.gen_pane e (w, h) = some p ∧
      p.offset = e.textbuffer.position / w := by
  refine ⟨⟨genPaneLayout w (e.label ++ e.textbuffer.buf),
    e.textbuffer.position / w, none⟩, ?_, rfl⟩
  simp [TextEditor.gen_pane, Nat.pos_iff_ne_zero.mp hw]

/-- Witness for the amended C9 at width 3. -/
theorem gen_pane_offset_witness :
    ∃ p : Pane, TextEditor.gen_pane texteditorEx (3, 1) = some p ∧
      p.offset = texteditorEx.textbuffer.position / 3 :=
  gen_pane_offset texteditorEx 3 1 (by decide)

/-- C10: the row layout computed inline by `TextEditor::gen_pane` over the
concatenation of the label and the text buffer is exactly
`matrixify(width, label ++ buffer)`: the two wrapping implementations are
equivalent, and for every terminal size the pane (when the width is
nonzero) carries that layout. -/
theorem gen_pane_layout_equiv (w h : Nat) (e : TextEditor) :
    genPaneLayout w (e.label ++ e.textbuffer.buf) =
        matrixify w (e.label ++ e.textbuffer.buf) ∧
      (TextEditor.gen_pane e (w, h)).map Pane.layout =
        if w = 0 then none else some (matrixify w (e.label ++ e.textbuffer.buf)) := by
  constructor
  · rfl
  · by_cases hw : w = 0
    · simp [TextEditor.gen_pane, hw]
    · simp only [TextEditor.gen_pane, hw, if_neg hw, Option.map_some]
      rfl

end Promkit
